import Mathlib

/-!
# OctoSlack — verification of the natural-language specification

Shallow embedding of the OctoSlack relay (Go) in Lean 4.  The program decodes
GitHub pull-request webhook events delivered over Redis pub/sub, decides
applicability through boolean/string predicates, and emits Slack-bound
notification, reaction and deletion records onto outbound Redis lists.

Modelling conventions:
* Pure Go functions become Lean functions with the same names.
* Redis/Slack side effects (RPush / Publish) become an explicit `Effect` list
  returned by each handler; fallible external calls (conversation-history
  fetch, thread-replies fetch, blocking pops) are passed in as
  `Except String _` inputs, mirroring the Go `(value, error)` results.
* Go `interface{}` values decoded from JSON are modelled by the `JValue`
  inductive; `map[string]interface{}` is modelled as an association list
  (Go maps are unordered, the list order is a representation artifact;
  JSON numbers are modelled as integers, which is exact for the integer
  payload fields this program produces).
* A compiled `*regexp.Regexp` is modelled by its `MatchString` function,
  i.e. as a `String → Bool` matcher.
-/

/-- JSON value, the model of a Go `interface{}` produced by `encoding/json`. -/
inductive JValue where
  | null : JValue
  | bool (b : Bool) : JValue
  | num (n : Int) : JValue
  | str (s : String) : JValue
  | arr (elems : List JValue) : JValue
  | obj (fields : List (String × JValue)) : JValue
  deriving Repr

/-- Go `unicode.IsSpace`: the White_Space code points recognised by
`strings.TrimSpace`. -/
def isSpaceGo (c : Char) : Bool :=
  c == ' ' || c == '\t' || c == '\n' || c.val == 0x0B || c.val == 0x0C ||
  c == '\r' || c.val == 0x85 || c.val == 0xA0 || c.val == 0x1680 ||
  (0x2000 ≤ c.val && c.val ≤ 0x200A) || c.val == 0x2028 || c.val == 0x2029 ||
  c.val == 0x202F || c.val == 0x205F || c.val == 0x3000

/-- Go `strings.TrimSpace`: drop leading and trailing White_Space characters. -/
def trimSpaceGo (s : String) : String :=
  String.mk (((s.toList.dropWhile isSpaceGo).reverse.dropWhile isSpaceGo).reverse)

/-- Go `strings.Split` with a one-character separator, on the character list:
`n` separators yield `n+1` segments (possibly empty). -/
def splitGoChar (sep : Char) : List Char → List String
  | [] => [""]
  | c :: rest =>
    if c = sep then "" :: splitGoChar sep rest
    else
      match splitGoChar sep rest with
      | [] => [String.mk [c]]
      | h :: t => String.mk (c :: h.toList) :: t

/-- Go `strings.Split(s, ",")`. -/
def stringsSplitComma (s : String) : List String :=
  splitGoChar ',' s.toList

/-- `splitAndTrim` from `config.go`: split a comma-separated string, trim each
segment, keep the non-empty ones (the Go loop appends to `result`). -/
def splitAndTrim (csvInput : String) : List String :=
  if csvInput = "" then []
  else
    (stringsSplitComma csvInput).foldl
      (fun result item =>
        let trimmed := trimSpaceGo item
        if trimmed ≠ "" then result ++ [trimmed] else result)
      []

/-- `user` field of a pull request (`main.go` / model file). -/
structure PRUser where
  login : String
  deriving Repr

/-- `head` field of a pull request: the source branch. -/
structure PRHead where
  ref : String
  deriving Repr

/-- Target repository of a pull request. -/
structure PRRepo where
  fullName : String
  deriving Repr

/-- `base` field of a pull request: the target side. -/
structure PRBase where
  repo : PRRepo
  deriving Repr

/-- The `pull_request` object of a GitHub webhook event.  The `draft` flag is
part of the struct in the handlers-era model (read by `handlers.go` as
`event.PullRequest.Draft`). -/
structure PRData where
  number : Int
  title : String
  htmlURL : String
  merged : Bool
  mergeCommitSHA : String
  draft : Bool
  user : PRUser
  head : PRHead
  base : PRBase
  deriving Repr

/-- `PullRequestEvent`: a decoded GitHub pull-request webhook event. -/
structure PullRequestEvent where
  action : String
  pullRequest : PRData
  deriving Repr

/-- `SlackMessage`: the outbound notification record.  `thread_ts` and
`metadata` carry `omitempty` in the Go struct tags; `metadata = none` models a
nil Go map. -/
structure SlackMessage where
  channel : String
  text : String
  threadTS : String := ""
  metadata : Option (List (String × JValue)) := none
  deriving Repr

/-- `SlackReaction`: an emoji-reaction record. -/
structure SlackReaction where
  reaction : String
  channel : String
  ts : String
  deriving Repr

/-- `TimeBombMessage`: a scheduled-deletion record (`handlers.go`). -/
structure TimeBombMessage where
  channel : String
  ts : String
  ttl : Int
  deriving Repr

/-- `slack.SlackMetadata` as used by the handlers-era lookups: an event type
tag plus an optional payload map. -/
structure SlackMetadata where
  eventType : String
  eventPayload : Option (List (String × JValue))
  deriving Repr

/-- One entry of the Slack conversation history fetched through the SDK
(the `msg.Msg` projection used by `logger.go`). -/
structure SlackAPIMessage where
  timestamp : String
  threadTimestamp : String
  metadata : SlackMetadata
  deriving Repr

/-- `SlackHistoryMessage`: the read-only projection the lookups return. -/
structure SlackHistoryMessage where
  ts : String
  threadTS : String
  metadata : SlackMetadata
  deriving Repr

/-- `PoppitCommandOutput`: a deployment-completion event. -/
structure PoppitCommandOutput where
  type : String
  command : String
  output : String
  metadata : Option (List (String × JValue)) := none
  deriving Repr

/-- `DraftPRFilterConfig` from `config.go`. -/
structure DraftPRFilterConfig where
  enabledRepoNames : List String
  allowedBranchStarts : List String

/-- `Config` from `config.go` (handlers era).  A compiled blacklist pattern is
modelled by its `MatchString` function. -/
structure Config where
  redisHost : String := ""
  redisPort : String := ""
  redisChannel : String := ""
  redisPassword : String := ""
  slackRedisList : String := "slack_messages"
  slackChannelID : String
  poppitChannel : String := "poppit:command-output"
  slackReactionsList : String := "slack_reactions"
  slackSearchLimit : Int := 100
  slackBotToken : String := ""
  timeBombChannel : String := "timebomb-messages"
  draftPRFilter : DraftPRFilterConfig
  branchBlacklist : List (String → Bool)

/-- An observable side effect of a handler: an RPush of a serialized record to
a Redis list, or a Publish to a Redis channel. -/
inductive Effect where
  | pushMessage (listKey : String) (message : SlackMessage) : Effect
  | pushReaction (listKey : String) (reaction : SlackReaction) : Effect
  | publishTimeBomb (channel : String) (message : TimeBombMessage) : Effect
  deriving Repr

/-- The channel id carried inside the record an effect emits. -/
def effectChannel : Effect → String
  | .pushMessage _ m => m.channel
  | .pushReaction _ r => r.channel
  | .publishTimeBomb _ t => t.channel

/-- Go `payload[key].(string)`: look the key up in a decoded JSON object and
type-assert the value to a string. -/
def lookupString (fields : List (String × JValue)) (key : String) : Option String :=
  match fields.find? (fun kv => kv.1 == key) with
  | some (_, JValue.str s) => some s
  | _ => none

/-- Go `m[key]` on a decoded JSON object (presence only, no type assertion). -/
def jLookup (fields : List (String × JValue)) (key : String) : Option JValue :=
  (fields.find? (fun kv => kv.1 == key)).map Prod.snd

/-- Go `strings.HasPrefix`, modelled structurally on the character lists so
that concrete instances evaluate in the kernel. -/
def hasPrefixGo (p s : String) : Bool :=
  p.toList.isPrefixOf s.toList

/-- `shouldNotifyDraftPR` from `handlers.go`: a draft PR notifies only when
both filter lists are non-empty, the base repository is enabled, and the head
branch starts with an allowed prefix. -/
def shouldNotifyDraftPR (event : PullRequestEvent) (filter : DraftPRFilterConfig) : Bool :=
  if filter.enabledRepoNames.isEmpty || filter.allowedBranchStarts.isEmpty then
    false
  else
    let repoFullName := event.pullRequest.base.repo.fullName
    let branchName := event.pullRequest.head.ref
    let repoMatches := filter.enabledRepoNames.any (fun allowedRepo => allowedRepo == repoFullName)
    if !repoMatches then
      false
    else
      filter.allowedBranchStarts.any (fun allowedStart => hasPrefixGo allowedStart branchName)

/-- `shouldBlacklistPR` from `handlers.go`: blacklisted iff some compiled
pattern matches the head branch (empty pattern list blacklists nothing). -/
def shouldBlacklistPR (event : PullRequestEvent) (blacklistPatterns : List (String → Bool)) : Bool :=
  if blacklistPatterns.isEmpty then
    false
  else
    blacklistPatterns.any (fun pattern => pattern event.pullRequest.head.ref)

/-- The match condition of `findMessageByMetadata` (`logger.go`): metadata has
a non-empty event type, a non-nil payload, and the payload's `metadataKey`
entry is a string equal to `metadataValue`. -/
def messageMatchesMetadata (msg : SlackAPIMessage) (metadataKey metadataValue : String) : Bool :=
  if msg.metadata.eventType ≠ "" then
    match msg.metadata.eventPayload with
    | some payload =>
      match lookupString payload metadataKey with
      | some value => value == metadataValue
      | none => false
    | none => false
  else
    false

/-- Projection of a history entry into the returned `SlackHistoryMessage`. -/
def toHistoryMessage (msg : SlackAPIMessage) : SlackHistoryMessage :=
  { ts := msg.timestamp, threadTS := msg.threadTimestamp, metadata := msg.metadata }

/-- `findMessageByMetadata` from `logger.go`: scan the fetched conversation
history for the first entry whose metadata payload carries
`metadataKey = metadataValue`; a fetch error propagates. -/
def findMessageByMetadata (history : Except String (List SlackAPIMessage))
    (metadataKey metadataValue : String) : Except String (Option SlackHistoryMessage) :=
  match history with
  | .error e => .error ("failed to get conversation history: " ++ e)
  | .ok msgs =>
    .ok ((msgs.find? (fun msg => messageMatchesMetadata msg metadataKey metadataValue)).map toHistoryMessage)

/-- The reply condition of `findMessageByMergeCommitSHA` (`logger.go`): a
thread reply whose event type is `closed`, whose payload is non-nil, and whose
payload's `merge_commit_sha` entry is a string equal to the target hash. -/
def replyMatchesSHA (reply : SlackAPIMessage) (mergeCommitSHA : String) : Bool :=
  if reply.metadata.eventType ≠ "closed" then
    false
  else
    match reply.metadata.eventPayload with
    | none => false
    | some payload =>
      match lookupString payload "merge_commit_sha" with
      | some sha => sha == mergeCommitSHA
      | none => false

/-- The outer loop of `findMessageByMergeCommitSHA` (`logger.go`): skip
entries that are not `review_requested`; fetch the entry's thread replies
(an error is logged and skipped); return the top-level parent as soon as one
of its replies matches the hash. -/
def searchRepliesForSHA (repliesOf : String → Except String (List SlackAPIMessage))
    (mergeCommitSHA : String) : List SlackAPIMessage → Option SlackHistoryMessage
  | [] => none
  | msg :: rest =>
    if msg.metadata.eventType = "review_requested" then
      match repliesOf msg.timestamp with
      | .error _ => searchRepliesForSHA repliesOf mergeCommitSHA rest
      | .ok replies =>
        if replies.any (fun reply => replyMatchesSHA reply mergeCommitSHA) then
          some (toHistoryMessage msg)
        else
          searchRepliesForSHA repliesOf mergeCommitSHA rest
    else
      searchRepliesForSHA repliesOf mergeCommitSHA rest

/-- `findMessageByMergeCommitSHA` from `logger.go`: scan the history for
`review_requested` parents whose thread replies contain a `closed` event with
the target `merge_commit_sha`; return the parent, never the reply. -/
def findMessageByMergeCommitSHA (history : Except String (List SlackAPIMessage))
    (repliesOf : String → Except String (List SlackAPIMessage))
    (mergeCommitSHA : String) : Except String (Option SlackHistoryMessage) :=
  match history with
  | .error e => .error ("failed to get conversation history: " ++ e)
  | .ok msgs => .ok (searchRepliesForSHA repliesOf mergeCommitSHA msgs)

/-- The header switch of `handlePRNotification` (`handlers.go`). -/
def prNotificationHeader (action : String) : String :=
  if action = "review_requested" then "👀 Review Requested for Pull Request!"
  else if action = "opened" then "🚀 New Pull Request Opened!"
  else "📢 Pull Request Notification"

/-- The `fmt.Sprintf` message body of `handlePRNotification`. -/
def prNotificationText (event : PullRequestEvent) : String :=
  prNotificationHeader event.action ++ "\n\n" ++
  "*Repository:* " ++ event.pullRequest.base.repo.fullName ++ "\n" ++
  "*PR #" ++ toString event.pullRequest.number ++ ":* " ++ event.pullRequest.title ++ "\n" ++
  "*Author:* " ++ event.pullRequest.user.login ++ "\n" ++
  "*Branch:* " ++ event.pullRequest.head.ref ++ "\n" ++
  "*Link:* <" ++ event.pullRequest.htmlURL ++ "|View PR>"

/-- The `SlackMessage` literal constructed by `handlePRNotification`. -/
def prNotificationMessage (config : Config) (event : PullRequestEvent) : SlackMessage :=
  { channel := config.slackChannelID
    text := prNotificationText event
    threadTS := ""
    metadata := some
      [("event_type", JValue.str event.action),
       ("event_payload", JValue.obj
         [("pr_number", JValue.num event.pullRequest.number),
          ("repository", JValue.str event.pullRequest.base.repo.fullName),
          ("pr_url", JValue.str event.pullRequest.htmlURL),
          ("author", JValue.str event.pullRequest.user.login),
          ("branch", JValue.str event.pullRequest.head.ref)])] }

/-- `handlePRNotification` from `handlers.go`: build the notification and push
it to the Slack Redis list. -/
def handlePRNotification (config : Config) (event : PullRequestEvent) :
    Except String (List Effect) :=
  .ok [Effect.pushMessage config.slackRedisList (prNotificationMessage config event)]

/-- The guarded short-commit computation of `handlePRMerged` (`handlers.go`):
`sha[:7]` only when the hash is longer than 7, otherwise the whole hash.
Go slices bytes; merge-commit hashes are ASCII, so bytes coincide with the
characters modelled here. -/
def shortCommitSHA (sha : String) : String :=
  if sha.length > 7 then String.mk (sha.toList.take 7) else sha

/-- The thread-reply `SlackMessage` literal constructed by `handlePRMerged`
(`handlers.go`). -/
def mergedReplyMessage (config : Config) (event : PullRequestEvent)
    (threadTS : String) : SlackMessage :=
  { channel := config.slackChannelID
    text := "✅ Pull Request merged! Commit: " ++ shortCommitSHA event.pullRequest.mergeCommitSHA
    threadTS := threadTS
    metadata := some
      [("event_type", JValue.str "closed"),
       ("event_payload", JValue.obj
         [("merge_commit_sha", JValue.str event.pullRequest.mergeCommitSHA)])] }

/-- `handlePRMerged` from `handlers.go`: look the original notification up by
PR URL; no match is a normal outcome (no effect, nil error); on a match, push
a thread reply carrying the short commit hash. -/
def handlePRMerged (config : Config) (event : PullRequestEvent)
    (history : Except String (List SlackAPIMessage)) : Except String (List Effect) :=
  match findMessageByMetadata history "pr_url" event.pullRequest.htmlURL with
  | .error e => .error ("failed to search Slack messages: " ++ e)
  | .ok none => .ok []
  | .ok (some matchedMessage) =>
    .ok [Effect.pushMessage config.slackRedisList
          (mergedReplyMessage config event matchedMessage.ts)]

/-- `handlePRClosed` from `handlers.go` (rejected PRs): look the original
notification up by PR URL; on a match, push an `x` reaction and publish a
1-hour deletion timebomb for the parent message. -/
def handlePRClosed (config : Config) (event : PullRequestEvent)
    (history : Except String (List SlackAPIMessage)) : Except String (List Effect) :=
  match findMessageByMetadata history "pr_url" event.pullRequest.htmlURL with
  | .error e => .error ("failed to search Slack messages: " ++ e)
  | .ok none => .ok []
  | .ok (some matchedMessage) =>
    .ok [Effect.pushReaction config.slackReactionsList
          { reaction := "x", channel := config.slackChannelID, ts := matchedMessage.ts },
         Effect.publishTimeBomb config.timeBombChannel
          { channel := config.slackChannelID, ts := matchedMessage.ts, ttl := 3600 }]

/-- `handlePullRequestEvent` from `handlers.go`, after the JSON decode: the
lifecycle dispatch over the decoded event.  `history` is the conversation
history the merged/closed paths would fetch. -/
def handlePullRequestEvent (config : Config) (event : PullRequestEvent)
    (history : Except String (List SlackAPIMessage)) : Except String (List Effect) :=
  if event.action = "review_requested" then
    if shouldBlacklistPR event config.branchBlacklist then .ok []
    else handlePRNotification config event
  else if event.action = "opened" ∧ event.pullRequest.draft = false then
    if shouldBlacklistPR event config.branchBlacklist then .ok []
    else handlePRNotification config event
  else if event.action = "opened" ∧ event.pullRequest.draft = true then
    if shouldNotifyDraftPR event config.draftPRFilter then handlePRNotification config event
    else .ok []
  else if event.action = "closed" ∧ event.pullRequest.merged = true then
    handlePRMerged config event history
  else if event.action = "closed" ∧ event.pullRequest.merged = false then
    handlePRClosed config event history
  else
    .ok []

/-- `handlePoppitCommandOutput` from `handlers.go`, after the JSON decode:
only `github-dispatcher` events for the `docker compose up -d` command with a
string `git_commit_sha` in their metadata are processed; react with `package`
on the parent notification whose thread carries the deployed commit hash. -/
def handlePoppitCommandOutput (config : Config) (event : PoppitCommandOutput)
    (history : Except String (List SlackAPIMessage))
    (repliesOf : String → Except String (List SlackAPIMessage))
    : Except String (List Effect) :=
  if event.type ≠ "github-dispatcher" then .ok []
  else if event.command ≠ "docker compose up -d" then .ok []
  else
    match event.metadata with
    | none => .ok []
    | some md =>
      match lookupString md "git_commit_sha" with
      | none => .ok []
      | some gitCommitSHA =>
        if gitCommitSHA = "" then .ok []
        else
          match findMessageByMergeCommitSHA history repliesOf gitCommitSHA with
          | .error e => .error ("failed to search Slack messages: " ++ e)
          | .ok none => .ok []
          | .ok (some matchedMessage) =>
            .ok [Effect.pushReaction config.slackReactionsList
                  { reaction := "package", channel := config.slackChannelID,
                    ts := matchedMessage.ts }]

/-- Legacy `SlackHistoryMessage` from the pre-SDK `main.go` variant: metadata
is a decoded JSON map rather than an SDK struct. -/
structure LegacySlackHistoryMessage where
  ts : String
  threadTS : String
  metadata : Option (List (String × JValue))
  deriving Repr

/-- `SlackConversationsResponse` from the pre-SDK `main.go` variant. -/
structure SlackConversationsResponse where
  messages : List LegacySlackHistoryMessage
  deriving Repr

namespace Legacy

/-- The match condition of the pre-SDK `findMessageByMetadata` (`main.go`):
metadata is non-nil, its `event_payload` entry is an object, and that
object's `metadataKey` entry is a string equal to `metadataValue`. -/
def messageMatches (msg : LegacySlackHistoryMessage)
    (metadataKey metadataValue : String) : Bool :=
  match msg.metadata with
  | none => false
  | some md =>
    match jLookup md "event_payload" with
    | some (JValue.obj eventPayload) =>
      match lookupString eventPayload metadataKey with
      | some value => value == metadataValue
      | none => false
    | _ => false

/-- `findMessageByMetadata` from the pre-SDK `main.go` variant: request the
history through a Redis round trip; `blpopResult` is the bounded-timeout
blocking pop on the response list (`.error` on timeout or no data) and
`parse` is the JSON unmarshalling of the popped payload.  A pop failure is
treated as "no match found", not as an error. -/
def findMessageByMetadata (blpopResult : Except String (List String))
    (parse : String → Option SlackConversationsResponse)
    (metadataKey metadataValue : String) :
    Except String (Option LegacySlackHistoryMessage) :=
  match blpopResult with
  | .error _ => .ok none
  | .ok result =>
    if result.length < 2 then .error "invalid response format from Redis"
    else
      match parse (result.getD 1 "") with
      | none => .error "failed to unmarshal response"
      | some response =>
        .ok (response.messages.find?
              (fun msg => messageMatches msg metadataKey metadataValue))

end Legacy

/-- Go `event.PullRequest.MergeCommitSHA[:7]` as written (unguarded) in the
`main.go` variant of `handlePRMerged`: slicing panics when the string is
shorter than 7 bytes; the panic is modelled as `none`.  Hashes are ASCII, so
Go's byte slicing coincides with the character slicing modelled here. -/
def sliceTo7 (sha : String) : Option String :=
  if 7 ≤ sha.length then some (String.mk (sha.toList.take 7)) else none

/-- The merged-reply text of the `main.go` variant of `handlePRMerged`, built
with the unguarded slice. -/
def mergedReplyTextUnguarded (sha : String) : Option String :=
  (sliceTo7 sha).map (fun short => "✅ Pull Request merged! Commit: " ++ short)

/-- `encoding/json` marshalling of a `SlackMessage` at JSON-value level:
`thread_ts` and `metadata` are dropped when empty (`omitempty`). -/
def encodeSlackMessage (m : SlackMessage) : JValue :=
  JValue.obj
    ([("channel", JValue.str m.channel), ("text", JValue.str m.text)]
     ++ (if m.threadTS = "" then [] else [("thread_ts", JValue.str m.threadTS)])
     ++ (match m.metadata with
         | none => []
         | some md => if md.isEmpty then [] else [("metadata", JValue.obj md)]))

/-- Decode a string field: an absent field keeps the zero value `""`, a
mistyped field is an unmarshalling error. -/
def decodeStringField (fields : List (String × JValue)) (key : String) : Option String :=
  match jLookup fields key with
  | none => some ""
  | some (JValue.str s) => some s
  | some _ => none

/-- Decode the `metadata` field: absent keeps the nil map, an object decodes
to its entries, anything else is an unmarshalling error. -/
def decodeMetadataField (fields : List (String × JValue)) :
    Option (Option (List (String × JValue))) :=
  match jLookup fields "metadata" with
  | none => some none
  | some (JValue.obj md) => some (some md)
  | some _ => none

/-- `encoding/json` unmarshalling of a `SlackMessage` from a JSON value. -/
def decodeSlackMessage : JValue → Option SlackMessage
  | JValue.obj fields =>
    match decodeStringField fields "channel", decodeStringField fields "text",
          decodeStringField fields "thread_ts", decodeMetadataField fields with
    | some channel, some text, some threadTS, some metadata =>
      some { channel := channel, text := text, threadTS := threadTS, metadata := metadata }
    | _, _, _, _ => none
  | _ => none

/-- Does a handler result enqueue at least one outbound `SlackMessage`? -/
def emitsSlackMessage (result : Except String (List Effect)) : Bool :=
  match result with
  | .ok effects =>
    effects.any (fun e =>
      match e with
      | .pushMessage _ _ => true
      | _ => false)
  | .error _ => false

/-- Concrete draft-PR filter used by the concrete evaluations below. -/
def sampleFilter : DraftPRFilterConfig :=
  { enabledRepoNames := ["acme/widgets"], allowedBranchStarts := ["feature/"] }

/-- Concrete configuration: one blacklist pattern matching exactly the branch
`feature/x` (the matcher of a compiled pattern). -/
def sampleConfig : Config :=
  { slackChannelID := "C0123456789"
    draftPRFilter := sampleFilter
    branchBlacklist := [fun branch => branch == "feature/x"] }

/-- A draft `opened` event on the enabled repository, from the blacklisted
branch `feature/x` (which also carries the allowed `feature/` start). -/
def sampleDraftEvent : PullRequestEvent :=
  { action := "opened"
    pullRequest :=
      { number := 7, title := "draft work", htmlURL := "https://example.com/pr/7"
        merged := false, mergeCommitSHA := "", draft := true
        user := { login := "alice" }, head := { ref := "feature/x" }
        base := { repo := { fullName := "acme/widgets" } } } }

/-- A non-draft `opened` event from the blacklisted branch `feature/x`. -/
def sampleOpenedEvent : PullRequestEvent :=
  { action := "opened"
    pullRequest :=
      { number := 8, title := "ready work", htmlURL := "https://example.com/pr/8"
        merged := false, mergeCommitSHA := "", draft := false
        user := { login := "bob" }, head := { ref := "feature/x" }
        base := { repo := { fullName := "acme/widgets" } } } }

/-- A `review_requested` event from a branch no blacklist pattern matches. -/
def sampleReviewEvent : PullRequestEvent :=
  { action := "review_requested"
    pullRequest :=
      { number := 9, title := "please review", htmlURL := "https://example.com/pr/9"
        merged := false, mergeCommitSHA := "", draft := false
        user := { login := "carol" }, head := { ref := "main-line" }
        base := { repo := { fullName := "acme/widgets" } } } }

/-- A `closed` event with `merged = true`. -/
def sampleMergedEvent : PullRequestEvent :=
  { action := "closed"
    pullRequest :=
      { number := 10, title := "done", htmlURL := "https://example.com/pr/10"
        merged := true, mergeCommitSHA := "0123456789abcdef", draft := false
        user := { login := "dave" }, head := { ref := "main-line" }
        base := { repo := { fullName := "acme/widgets" } } } }

/-- A poppit event the dispatcher ignores (wrong type). -/
def samplePoppitEvent : PoppitCommandOutput :=
  { type := "other", command := "", output := "", metadata := none }

/-- Concrete `review_requested` parent entry of a fetched history. -/
def sampleParentMsg : SlackAPIMessage :=
  { timestamp := "100.1", threadTimestamp := ""
    metadata :=
      { eventType := "review_requested"
        eventPayload := some [("pr_url", JValue.str "https://example.com/pr/9")] } }

/-- Concrete `closed` thread reply carrying a merge-commit hash. -/
def sampleReplyMsg : SlackAPIMessage :=
  { timestamp := "100.2", threadTimestamp := "100.1"
    metadata :=
      { eventType := "closed"
        eventPayload := some [("merge_commit_sha", JValue.str "0123456789abcdef")] } }

/-- Concrete replies oracle: the thread of `sampleParentMsg` holds the parent
and the closing reply; every other thread is empty. -/
def sampleRepliesOf (ts : String) : Except String (List SlackAPIMessage) :=
  if ts = "100.1" then .ok [sampleParentMsg, sampleReplyMsg] else .ok []

/-- The accumulating loop of `splitAndTrim` is filter-of-map. -/
theorem splitAndTrim_foldl (parts : List String) (acc : List String) :
    parts.foldl
      (fun result item =>
        let trimmed := trimSpaceGo item
        if trimmed ≠ "" then result ++ [trimmed] else result)
      acc
    = acc ++ (parts.map trimSpaceGo).filter (fun t => t ≠ "") := by
  induction parts generalizing acc with
  | nil => simp
  | cons head tail ih =>
    simp only [List.foldl_cons, List.map_cons, List.filter_cons]
    by_cases h : trimSpaceGo head ≠ ""
    · rw [ih]
      simp [h]
    · rw [ih]
      simp at h
      simp [h]

/-- C8: `splitAndTrim` splits on commas, trims every segment, and drops
segments that are empty after trimming; `"repo1, ,repo2"` yields
`["repo1","repo2"]` and `""` yields `[]`. -/
theorem splitAndTrim_spec :
    splitAndTrim "repo1, ,repo2" = ["repo1", "repo2"] ∧
    splitAndTrim "" = [] ∧
    ∀ s : String,
      splitAndTrim s = ((stringsSplitComma s).map trimSpaceGo).filter (fun t => t ≠ "") := by
  refine ⟨by decide, rfl, ?_⟩
  intro s
  by_cases hs : s = ""
  · subst hs
    decide
  · unfold splitAndTrim
    rw [if_neg hs, splitAndTrim_foldl]
    simp

/-- A branch matched by some compiled pattern is blacklisted. -/
theorem shouldBlacklistPR_of_match (event : PullRequestEvent)
    (patterns : List (String → Bool))
    (h : ∃ pattern ∈ patterns, pattern event.pullRequest.head.ref = true) :
    shouldBlacklistPR event patterns = true := by
  obtain ⟨p, hp, hmatch⟩ := h
  have hne : patterns.isEmpty = false := by
    cases patterns with
    | nil => cases hp
    | cons a l => rfl
  unfold shouldBlacklistPR
  rw [if_neg (by simp [hne])]
  exact List.any_eq_true.mpr ⟨p, hp, hmatch⟩

/-- C5: for `review_requested` events and non-draft `opened` events, a
blacklist match on the head branch means the handler returns with no effect:
nothing is pushed to any outbound list. -/
theorem blacklist_suppresses_nondraft (config : Config) (event : PullRequestEvent)
    (history : Except String (List SlackAPIMessage))
    (hkind : event.action = "review_requested" ∨
      (event.action = "opened" ∧ event.pullRequest.draft = false))
    (hbl : ∃ pattern ∈ config.branchBlacklist,
      pattern event.pullRequest.head.ref = true) :
    handlePullRequestEvent config event history = .ok [] := by
  have hb := shouldBlacklistPR_of_match event config.branchBlacklist hbl
  rcases hkind with h | ⟨ha, hd⟩
  · simp [handlePullRequestEvent, h, hb]
  · simp [handlePullRequestEvent, ha, hd, hb]

/-- Witness for C5: the non-draft `opened` event on blacklisted branch
`feature/x` produces no effect. -/
theorem blacklist_suppresses_nondraft_witness :
    (sampleOpenedEvent.action = "review_requested" ∨
      (sampleOpenedEvent.action = "opened" ∧ sampleOpenedEvent.pullRequest.draft = false)) ∧
    (∃ pattern ∈ sampleConfig.branchBlacklist,
      pattern sampleOpenedEvent.pullRequest.head.ref = true) ∧
    handlePullRequestEvent sampleConfig sampleOpenedEvent (.ok []) = .ok [] := by
  have hmem : (fun branch => branch == "feature/x") ∈ sampleConfig.branchBlacklist :=
    List.mem_singleton.mpr rfl
  refine ⟨Or.inr ⟨rfl, rfl⟩, ⟨_, hmem, rfl⟩, ?_⟩
  exact blacklist_suppresses_nondraft sampleConfig sampleOpenedEvent (.ok [])
    (Or.inr ⟨rfl, rfl⟩) ⟨_, hmem, rfl⟩

/-- C1 counterexample: the draft `opened` event on the blacklisted branch
`feature/x` is blacklisted, yet the handler still emits a notification,
because the draft path never consults the blacklist. -/
theorem blacklisted_draft_notifies_cex :
    shouldBlacklistPR sampleDraftEvent sampleConfig.branchBlacklist = true ∧
    emitsSlackMessage
      (handlePullRequestEvent sampleConfig sampleDraftEvent (.ok [])) = true := by
  exact ⟨by decide, by decide⟩

/-- C1 (amended): a blacklist match suppresses notification on the
`review_requested` and non-draft `opened` paths, but the draft `opened` path
does not consult the blacklist: there, notification is emitted exactly when
the draft filter passes, blacklisted branch or not. -/
theorem blacklist_skips_draft_path (config : Config) (event : PullRequestEvent)
    (history : Except String (List SlackAPIMessage))
    (hbl : ∃ pattern ∈ config.branchBlacklist,
      pattern event.pullRequest.head.ref = true) :
    ((event.action = "review_requested" ∨
        (event.action = "opened" ∧ event.pullRequest.draft = false)) →
      handlePullRequestEvent config event history = .ok []) ∧
    (event.action = "opened" → event.pullRequest.draft = true →
      emitsSlackMessage (handlePullRequestEvent config event history) =
        shouldNotifyDraftPR event config.draftPRFilter) := by
  have hb := shouldBlacklistPR_of_match event config.branchBlacklist hbl
  constructor
  · rintro (h | ⟨ha, hd⟩)
    · simp [handlePullRequestEvent, h, hb]
    · simp [handlePullRequestEvent, ha, hd, hb]
  · intro ha hd
    by_cases hf : shouldNotifyDraftPR event config.draftPRFilter = true
    · simp [handlePullRequestEvent, ha, hd, hf, handlePRNotification, emitsSlackMessage]
    · have hf' : shouldNotifyDraftPR event config.draftPRFilter = false :=
        Bool.not_eq_true _ ▸ eq_false_of_ne_true hf
      simp [handlePullRequestEvent, ha, hd, hf', emitsSlackMessage]

/-- Witness for the amended C1: at the blacklisted draft event, the handler's
notification decision equals the draft filter's verdict. -/
theorem blacklist_skips_draft_path_witness :
    (∃ pattern ∈ sampleConfig.branchBlacklist,
      pattern sampleDraftEvent.pullRequest.head.ref = true) ∧
    emitsSlackMessage (handlePullRequestEvent sampleConfig sampleDraftEvent (.ok [])) =
      shouldNotifyDraftPR sampleDraftEvent sampleConfig.draftPRFilter := by
  have hmem : (fun branch => branch == "feature/x") ∈ sampleConfig.branchBlacklist :=
    List.mem_singleton.mpr rfl
  exact ⟨⟨_, hmem, rfl⟩,
    (blacklist_skips_draft_path sampleConfig sampleDraftEvent (.ok [])
      ⟨_, hmem, rfl⟩).2 rfl rfl⟩

/-- Characterisation of the draft-PR filter: it passes exactly when both
lists are non-empty, the base repository is enabled, and some allowed start
is a prefix of the head branch. -/
theorem shouldNotifyDraftPR_eq_true_iff (event : PullRequestEvent)
    (filter : DraftPRFilterConfig) :
    shouldNotifyDraftPR event filter = true ↔
      (filter.enabledRepoNames ≠ [] ∧ filter.allowedBranchStarts ≠ [] ∧
       event.pullRequest.base.repo.fullName ∈ filter.enabledRepoNames ∧
       ∃ allowedStart ∈ filter.allowedBranchStarts,
         hasPrefixGo allowedStart event.pullRequest.head.ref = true) := by
  simp only [shouldNotifyDraftPR]
  by_cases hA : (filter.enabledRepoNames.isEmpty || filter.allowedBranchStarts.isEmpty) = true
  · rw [if_pos hA]
    constructor
    · intro h
      exact Bool.noConfusion h
    · rintro ⟨hr, hb, -, -⟩
      simp only [Bool.or_eq_true, List.isEmpty_iff] at hA
      rcases hA with h | h
      · exact absurd h hr
      · exact absurd h hb
  · rw [if_neg hA]
    simp only [Bool.or_eq_true, List.isEmpty_iff] at hA
    push_neg at hA
    obtain ⟨hr, hb⟩ := hA
    by_cases hB : (filter.enabledRepoNames.any
        (fun allowedRepo => allowedRepo == event.pullRequest.base.repo.fullName)) = true
    · rw [if_neg (by simp [hB])]
      constructor
      · intro hC
        obtain ⟨st, hst, hp⟩ := List.any_eq_true.mp hC
        refine ⟨hr, hb, ?_, st, hst, hp⟩
        obtain ⟨r, hrmem, hrbeq⟩ := List.any_eq_true.mp hB
        exact (eq_of_beq hrbeq) ▸ hrmem
      · rintro ⟨-, -, -, st, hst, hp⟩
        exact List.any_eq_true.mpr ⟨st, hst, hp⟩
    · rw [if_pos (by simp [eq_false_of_ne_true hB])]
      constructor
      · intro h
        exact Bool.noConfusion h
      · rintro ⟨-, -, hmem, -⟩
        refine absurd (List.any_eq_true.mpr ⟨_, hmem, ?_⟩) hB
        exact beq_self_eq_true _

/-- C2: for a draft `opened` event, a notification is emitted iff both filter
lists are non-empty, the base repository is enabled, and the head branch
starts with some allowed start. -/
theorem draft_notify_iff_filter (config : Config) (event : PullRequestEvent)
    (history : Except String (List SlackAPIMessage))
    (ha : event.action = "opened") (hd : event.pullRequest.draft = true) :
    emitsSlackMessage (handlePullRequestEvent config event history) = true ↔
      (config.draftPRFilter.enabledRepoNames ≠ [] ∧
       config.draftPRFilter.allowedBranchStarts ≠ [] ∧
       event.pullRequest.base.repo.fullName ∈ config.draftPRFilter.enabledRepoNames ∧
       ∃ allowedStart ∈ config.draftPRFilter.allowedBranchStarts,
         hasPrefixGo allowedStart event.pullRequest.head.ref = true) := by
  rw [← shouldNotifyDraftPR_eq_true_iff]
  by_cases hf : shouldNotifyDraftPR event config.draftPRFilter = true
  · simp [handlePullRequestEvent, ha, hd, hf, handlePRNotification, emitsSlackMessage]
  · have hf' : shouldNotifyDraftPR event config.draftPRFilter = false :=
      eq_false_of_ne_true hf
    simp [handlePullRequestEvent, ha, hd, hf', emitsSlackMessage]

/-- Witness for C2 at the concrete draft event: the filter passes and the
notification is emitted. -/
theorem draft_notify_iff_filter_witness :
    sampleDraftEvent.action = "opened" ∧
    sampleDraftEvent.pullRequest.draft = true ∧
    (emitsSlackMessage (handlePullRequestEvent sampleConfig sampleDraftEvent (.ok [])) = true ↔
      (sampleConfig.draftPRFilter.enabledRepoNames ≠ [] ∧
       sampleConfig.draftPRFilter.allowedBranchStarts ≠ [] ∧
       sampleDraftEvent.pullRequest.base.repo.fullName ∈ sampleConfig.draftPRFilter.enabledRepoNames ∧
       ∃ allowedStart ∈ sampleConfig.draftPRFilter.allowedBranchStarts,
         hasPrefixGo allowedStart sampleDraftEvent.pullRequest.head.ref = true)) :=
  ⟨rfl, rfl, draft_notify_iff_filter sampleConfig sampleDraftEvent (.ok []) rfl rfl⟩

/-- C6: a merged `closed` event whose PR URL matches no message of the
fetched history produces no thread reply and no error: the handler returns
`ok` with no effect. -/
theorem merged_unmatched_no_reply (config : Config) (event : PullRequestEvent)
    (msgs : List SlackAPIMessage)
    (haction : event.action = "closed") (hmerged : event.pullRequest.merged = true)
    (hnomatch : ∀ msg ∈ msgs,
      messageMatchesMetadata msg "pr_url" event.pullRequest.htmlURL = false) :
    handlePullRequestEvent config event (.ok msgs) = .ok [] := by
  have hfind : msgs.find?
      (fun msg => messageMatchesMetadata msg "pr_url" event.pullRequest.htmlURL) = none :=
    List.find?_eq_none.mpr (fun x hx => by simp [hnomatch x hx])
  simp [handlePullRequestEvent, haction, hmerged, handlePRMerged,
    findMessageByMetadata, hfind]

/-- Witness for C6: the merged event against an empty history yields no
effect and no error. -/
theorem merged_unmatched_no_reply_witness :
    sampleMergedEvent.action = "closed" ∧
    sampleMergedEvent.pullRequest.merged = true ∧
    handlePullRequestEvent sampleConfig sampleMergedEvent (.ok []) = .ok [] :=
  ⟨rfl, rfl, merged_unmatched_no_reply sampleConfig sampleMergedEvent [] rfl rfl
    (fun msg h => absurd h (List.not_mem_nil msg))⟩

/-- C7: when the bounded-timeout blocking pop on the response list fails, the
pre-SDK `findMessageByMetadata` returns "no match found" — `ok none`, not an
error — whatever the parser and the searched key/value are. -/
theorem legacy_lookup_timeout_ok_none
    (parse : String → Option SlackConversationsResponse)
    (metadataKey metadataValue err : String) :
    Legacy.findMessageByMetadata (.error err) parse metadataKey metadataValue =
      .ok none := rfl

/-- Soundness of the outer scan of `findMessageByMergeCommitSHA`: a returned
message is a `review_requested` entry of the scanned list, one of whose
fetched replies matches the hash, and the parent projection is returned. -/
theorem searchRepliesForSHA_some
    (repliesOf : String → Except String (List SlackAPIMessage)) (sha : String)
    (msgs : List SlackAPIMessage) (m : SlackHistoryMessage)
    (h : searchRepliesForSHA repliesOf sha msgs = some m) :
    ∃ msg ∈ msgs, msg.metadata.eventType = "review_requested" ∧
      m = toHistoryMessage msg ∧
      ∃ replies, repliesOf msg.timestamp = .ok replies ∧
        ∃ reply ∈ replies, replyMatchesSHA reply sha = true := by
  induction msgs with
  | nil => simp [searchRepliesForSHA] at h
  | cons msg rest ih =>
    simp only [searchRepliesForSHA] at h
    by_cases ht : msg.metadata.eventType = "review_requested"
    · rw [if_pos ht] at h
      cases hr : repliesOf msg.timestamp with
      | error e =>
        rw [hr] at h
        simp only [] at h
        obtain ⟨msg', hmem, rest'⟩ := ih h
        exact ⟨msg', List.mem_cons_of_mem _ hmem, rest'⟩
      | ok replies =>
        rw [hr] at h
        simp only [] at h
        by_cases hany : (replies.any fun reply => replyMatchesSHA reply sha) = true
        · rw [if_pos hany] at h
          obtain ⟨reply, hrep, hmatch⟩ := List.any_eq_true.mp hany
          exact ⟨msg, List.mem_cons_self _ _, ht, (Option.some.inj h).symm,
            replies, hr, reply, hrep, hmatch⟩
        · rw [if_neg hany] at h
          obtain ⟨msg', hmem, rest'⟩ := ih h
          exact ⟨msg', List.mem_cons_of_mem _ hmem, rest'⟩
    · rw [if_neg ht] at h
      obtain ⟨msg', hmem, rest'⟩ := ih h
      exact ⟨msg', List.mem_cons_of_mem _ hmem, rest'⟩

/-- C4: whenever `findMessageByMergeCommitSHA` returns a message, that message
is a top-level entry of the fetched history with event type
`review_requested`, one of whose thread replies is a `closed` event whose
payload's `merge_commit_sha` equals the searched hash; the returned value is
the top-level parent, never the reply itself. -/
theorem findMessageByMergeCommitSHA_sound
    (history : Except String (List SlackAPIMessage))
    (repliesOf : String → Except String (List SlackAPIMessage))
    (sha : String) (m : SlackHistoryMessage)
    (h : findMessageByMergeCommitSHA history repliesOf sha = .ok (some m)) :
    ∃ msgs, history = .ok msgs ∧
      ∃ msg ∈ msgs, msg.metadata.eventType = "review_requested" ∧
        m = toHistoryMessage msg ∧
        ∃ replies, repliesOf msg.timestamp = .ok replies ∧
          ∃ reply ∈ replies, reply.metadata.eventType = "closed" ∧
            ∃ payload, reply.metadata.eventPayload = some payload ∧
              lookupString payload "merge_commit_sha" = some sha := by
  cases history with
  | error e => simp [findMessageByMergeCommitSHA] at h
  | ok msgs =>
    simp only [findMessageByMergeCommitSHA] at h
    obtain ⟨msg, hmem, ht, hm, replies, hrep, reply, hrmem, hmatch⟩ :=
      searchRepliesForSHA_some repliesOf sha msgs m (Except.ok.inj h)
    refine ⟨msgs, rfl, msg, hmem, ht, hm, replies, hrep, reply, hrmem, ?_⟩
    unfold replyMatchesSHA at hmatch
    by_cases hc : reply.metadata.eventType ≠ "closed"
    · rw [if_pos hc] at hmatch
      exact Bool.noConfusion hmatch
    · rw [if_neg hc] at hmatch
      push_neg at hc
      refine ⟨hc, ?_⟩
      cases hp : reply.metadata.eventPayload with
      | none =>
        rw [hp] at hmatch
        simp only [] at hmatch
        exact Bool.noConfusion hmatch
      | some payload =>
        rw [hp] at hmatch
        simp only [] at hmatch
        cases hl : lookupString payload "merge_commit_sha" with
        | none =>
          rw [hl] at hmatch
          simp only [] at hmatch
          exact Bool.noConfusion hmatch
        | some s =>
          rw [hl] at hmatch
          simp only [] at hmatch
          exact ⟨payload, rfl, by rw [hl, eq_of_beq hmatch]⟩

/-- Witness for C4 at a concrete one-parent history whose thread carries the
closing reply. -/
theorem findMessageByMergeCommitSHA_sound_witness :
    ∃ msgs, (Except.ok [sampleParentMsg] : Except String (List SlackAPIMessage)) = .ok msgs ∧
      ∃ msg ∈ msgs, msg.metadata.eventType = "review_requested" ∧
        toHistoryMessage sampleParentMsg = toHistoryMessage msg ∧
        ∃ replies, sampleRepliesOf msg.timestamp = .ok replies ∧
          ∃ reply ∈ replies, reply.metadata.eventType = "closed" ∧
            ∃ payload, reply.metadata.eventPayload = some payload ∧
              lookupString payload "merge_commit_sha" = some "0123456789abcdef" :=
  findMessageByMergeCommitSHA_sound (.ok [sampleParentMsg]) sampleRepliesOf
    "0123456789abcdef" (toHistoryMessage sampleParentMsg) rfl

/-- C3: encoding then decoding either outbound `SlackMessage` the handlers
construct (the PR notification and the merged thread reply) restores the
record exactly: channel, text, thread timestamp and metadata map. -/
theorem slackMessage_roundtrip (config : Config) (event : PullRequestEvent) (ts : String) :
    decodeSlackMessage (encodeSlackMessage (prNotificationMessage config event)) =
      some (prNotificationMessage config event) ∧
    decodeSlackMessage (encodeSlackMessage (mergedReplyMessage config event ts)) =
      some (mergedReplyMessage config event ts) := by
  constructor
  · rfl
  · by_cases hts : ts = ""
    · subst hts
      rfl
    · have henc : encodeSlackMessage (mergedReplyMessage config event ts) =
          JValue.obj
            [("channel", JValue.str config.slackChannelID),
             ("text", JValue.str ("✅ Pull Request merged! Commit: " ++
               shortCommitSHA event.pullRequest.mergeCommitSHA)),
             ("thread_ts", JValue.str ts),
             ("metadata", JValue.obj
               [("event_type", JValue.str "closed"),
                ("event_payload", JValue.obj
                  [("merge_commit_sha", JValue.str event.pullRequest.mergeCommitSHA)])])] := by
        simp [encodeSlackMessage, mergedReplyMessage, hts]
      rw [henc]
      rfl

/-- C9 counterexample: the unguarded `main.go` slice `MergeCommitSHA[:7]` is
not total — on the empty hash the slice (hence the merged-reply text) panics,
modelled as `none`. -/
theorem unguarded_slice_empty_cex :
    sliceTo7 "" = none ∧ mergedReplyTextUnguarded "" = none :=
  ⟨rfl, rfl⟩

/-- `String.mk` undoes `String.toList`. -/
theorem mk_toList (s : String) : String.mk s.toList = s := by
  cases s
  rfl

/-- C9 (amended): the guarded variant (`handlers.go`) is total — it always
yields the first `min 7 (length)` characters, i.e. the whole hash when it has
at most 7 characters and exactly the first 7 otherwise; the unguarded variant
(`main.go`) agrees with it whenever the hash has at least 7 characters, and is
undefined (panics) below that. -/
theorem shortCommitSHA_take7
    (sha : String) (h7 : 7 ≤ sha.length) :
    (∀ t : String, shortCommitSHA t = String.mk (t.toList.take 7) ∧
      (shortCommitSHA t).length = min 7 t.length) ∧
    sliceTo7 sha = some (shortCommitSHA sha) := by
  have hmain : ∀ t : String, shortCommitSHA t = String.mk (t.toList.take 7) ∧
      (shortCommitSHA t).length = min 7 t.length := by
    intro t
    unfold shortCommitSHA
    by_cases h : t.length > 7
    · rw [if_pos h]
      constructor
      · rfl
      · show (t.toList.take 7).length = min 7 t.length
        exact List.length_take 7 t.toList
    · rw [if_neg h]
      push_neg at h
      have htake : t.toList.take 7 = t.toList :=
        List.take_of_length_le h
      constructor
      · rw [htake, mk_toList]
      · omega
  refine ⟨hmain, ?_⟩
  unfold sliceTo7
  rw [if_pos h7, (hmain sha).1]

/-- Witness for C9 at a 16-character hash: the unguarded slice agrees with
the guarded short form. -/
theorem shortCommitSHA_take7_witness :
    7 ≤ ("0123456789abcdef" : String).length ∧
    sliceTo7 "0123456789abcdef" = some (shortCommitSHA "0123456789abcdef") :=
  ⟨by decide, (shortCommitSHA_take7 "0123456789abcdef" (by decide)).2⟩

/-- Channel invariant for `handlePRNotification`. -/
theorem effectChannel_handlePRNotification (config : Config) (event : PullRequestEvent)
    (effects : List Effect) (e : Effect)
    (h1 : handlePRNotification config event = .ok effects) (h2 : e ∈ effects) :
    effectChannel e = config.slackChannelID := by
  cases h1
  simp only [List.mem_singleton] at h2
  subst h2
  rfl

/-- Channel invariant for `handlePRMerged`. -/
theorem effectChannel_handlePRMerged (config : Config) (event : PullRequestEvent)
    (history : Except String (List SlackAPIMessage))
    (effects : List Effect) (e : Effect)
    (h1 : handlePRMerged config event history = .ok effects) (h2 : e ∈ effects) :
    effectChannel e = config.slackChannelID := by
  unfold handlePRMerged at h1
  split at h1
  · exact Except.noConfusion h1
  · cases h1
    cases h2
  · cases h1
    simp only [List.mem_singleton] at h2
    subst h2
    rfl

/-- Channel invariant for `handlePRClosed`. -/
theorem effectChannel_handlePRClosed (config : Config) (event : PullRequestEvent)
    (history : Except String (List SlackAPIMessage))
    (effects : List Effect) (e : Effect)
    (h1 : handlePRClosed config event history = .ok effects) (h2 : e ∈ effects) :
    effectChannel e = config.slackChannelID := by
  unfold handlePRClosed at h1
  split at h1
  · exact Except.noConfusion h1
  · cases h1
    cases h2
  · cases h1
    simp only [List.mem_cons, List.mem_singleton] at h2
    rcases h2 with h2 | h2 | h2
    · subst h2; rfl
    · subst h2; rfl
    · cases h2

/-- Channel invariant for the pull-request dispatcher. -/
theorem effectChannel_handlePullRequestEvent (config : Config) (event : PullRequestEvent)
    (history : Except String (List SlackAPIMessage))
    (effects : List Effect) (e : Effect)
    (h1 : handlePullRequestEvent config event history = .ok effects) (h2 : e ∈ effects) :
    effectChannel e = config.slackChannelID := by
  unfold handlePullRequestEvent at h1
  split_ifs at h1 <;>
    first
      | exact effectChannel_handlePRNotification config event effects e h1 h2
      | exact effectChannel_handlePRMerged config event history effects e h1 h2
      | exact effectChannel_handlePRClosed config event history effects e h1 h2
      | (cases h1; cases h2)

/-- Channel invariant for the poppit dispatcher. -/
theorem effectChannel_handlePoppit (config : Config) (event : PoppitCommandOutput)
    (history : Except String (List SlackAPIMessage))
    (repliesOf : String → Except String (List SlackAPIMessage))
    (effects : List Effect) (e : Effect)
    (h1 : handlePoppitCommandOutput config event history repliesOf = .ok effects)
    (h2 : e ∈ effects) :
    effectChannel e = config.slackChannelID := by
  unfold handlePoppitCommandOutput at h1
  split_ifs at h1
  · cases h1; cases h2
  · cases h1; cases h2
  · split at h1
    · cases h1; cases h2
    · split at h1
      · cases h1; cases h2
      · split_ifs at h1
        · cases h1; cases h2
        · split at h1
          · exact Except.noConfusion h1
          · cases h1; cases h2
          · cases h1
            simp only [List.mem_singleton] at h2
            subst h2
            rfl

/-- C10: every record the event handlers enqueue or publish — notification,
thread reply, emoji reaction and deletion request — carries the configured
Slack channel id in its channel field. -/
theorem effects_target_configured_channel (config : Config)
    (prEvent : PullRequestEvent) (poppitEvent : PoppitCommandOutput)
    (histPR histPoppit : Except String (List SlackAPIMessage))
    (repliesOf : String → Except String (List SlackAPIMessage))
    (effects : List Effect) (e : Effect)
    (h : (handlePullRequestEvent config prEvent histPR = .ok effects ∧ e ∈ effects) ∨
         (handlePoppitCommandOutput config poppitEvent histPoppit repliesOf = .ok effects ∧
           e ∈ effects)) :
    effectChannel e = config.slackChannelID := by
  rcases h with ⟨h1, h2⟩ | ⟨h1, h2⟩
  · exact effectChannel_handlePullRequestEvent config prEvent histPR effects e h1 h2
  · exact effectChannel_handlePoppit config poppitEvent histPoppit repliesOf effects e h1 h2

/-- Witness for C10: the concrete `review_requested` notification carries the
configured channel id. -/
theorem effects_target_configured_channel_witness :
    handlePullRequestEvent sampleConfig sampleReviewEvent (.ok []) =
      .ok [Effect.pushMessage sampleConfig.slackRedisList
            (prNotificationMessage sampleConfig sampleReviewEvent)] ∧
    effectChannel (Effect.pushMessage sampleConfig.slackRedisList
      (prNotificationMessage sampleConfig sampleReviewEvent)) =
        sampleConfig.slackChannelID := by
  constructor
  · rfl
  · exact effects_target_configured_channel sampleConfig sampleReviewEvent
      samplePoppitEvent (.ok []) (.ok []) sampleRepliesOf _ _
      (Or.inl ⟨rfl, List.mem_singleton.mpr rfl⟩)
